import Mathlib

/-!
Shallow embedding of the viering-chess rules engine (src/lib.rs, src/moves.rs)
and verification of the specification claims about it.

Conventions:
* Rust u8 board coordinates (always in 0..=7) are modelled as Fin 8.
* The 64-square array is modelled as a function Fin 64 → Square; the linear
  index mapping 8*8 - 8 - y*8 + x of get_square/set_square is kept verbatim.
* Rust i32 arithmetic in the step generator is modelled with Int.
* Loops are modelled with List.all / List.any / folds over the same iteration
  order as the source (x outer, y inner).
-/

inductive Color where
  | Black
  | White
deriving DecidableEq, Repr

/-- Rust: impl Not for Color. -/
def Color.opp : Color → Color
  | .Black => .White
  | .White => .Black

inductive PieceType where
  | Pawn
  | Knight
  | Bishop
  | Rook
  | Queen
  | King
deriving DecidableEq, Repr

structure Piece where
  piece_type : PieceType
  color : Color
deriving DecidableEq, Repr

def Square := Option Piece
deriving DecidableEq, Repr

structure Position where
  x : Fin 8
  y : Fin 8
deriving DecidableEq, Repr

inductive GameState where
  | Normal
  | Check (c : Color)
  | Checkmate (c : Color)
  | Draw
  | AwaitingPromotion (p : Position)
deriving DecidableEq, Repr

inductive MoveResult where
  | Allowed
  | Disallowed
deriving DecidableEq, Repr

structure Game where
  squares : Fin 64 → Square
  turn : Color
  game_state : GameState
  moves_since_capture : Nat
  en_passant_susceptible_pawn : Option Position
  white_castling_kingside_available : Bool
  white_castling_queenside_available : Bool
  black_castling_kingside_available : Bool
  black_castling_queenside_available : Bool

/-- The linear index 8*8 - 8 - y*8 + x used by Game::get_square / set_square. -/
def Position.idx (p : Position) : Fin 64 :=
  ⟨8 * 8 - 8 - p.y.val * 8 + p.x.val, by
    have hx := p.x.isLt
    have hy := p.y.isLt
    omega⟩

def Game.get_square (g : Game) (p : Position) : Square :=
  g.squares p.idx

def Game.set_square (g : Game) (p : Position) (v : Square) : Game :=
  { g with squares := Function.update g.squares p.idx v }

/-- Rust PositionBuilder: an optional position plus a facing color. -/
structure PositionBuilder where
  position : Option Position
  color : Color

def PositionBuilder.set (p : Position) : PositionBuilder :=
  { position := some p, color := .White }

/-- Rust PositionBuilder::color (renamed: the structure field is also named color). -/
def PositionBuilder.withColor (b : PositionBuilder) (c : Color) : PositionBuilder :=
  { b with color := c }

/-- Rust PositionBuilder::walk: offset by an i32 delta, clamping off-board to None. -/
def PositionBuilder.walk (b : PositionBuilder) (amount : Int × Int) : PositionBuilder :=
  match b.position with
  | some pos =>
    let nx : Int := (pos.x.val : Int) + amount.1
    let ny : Int := (pos.y.val : Int) + amount.2
    if h : 0 ≤ nx ∧ nx ≤ 7 ∧ 0 ≤ ny ∧ ny ≤ 7 then
      { b with position := some ⟨⟨nx.toNat, by omega⟩, ⟨ny.toNat, by omega⟩⟩ }
    else
      { b with position := none }
  | none => b

/-- Rust PositionBuilder::forward: move along y in the direction the color faces. -/
def PositionBuilder.forward (b : PositionBuilder) (amount : Int) : PositionBuilder :=
  let modifier : Int := if b.color = .White then 1 else -1
  match b.position with
  | some pos =>
    let ny : Int := (pos.y.val : Int) + amount * modifier
    if h : 0 ≤ ny ∧ ny ≤ 7 then
      { b with position := some ⟨pos.x, ⟨ny.toNat, by omega⟩⟩ }
    else
      { b with position := none }
  | none => b

def PositionBuilder.build (b : PositionBuilder) : Option Position :=
  b.position

/-- Loop body of moves.rs calc_max_move_len, with explicit fuel.  The Rust loop
walks one square per iteration in a fixed direction with a nonzero component,
so it terminates within 8 iterations; fuel 16 is never exhausted at call sites. -/
def calc_max_move_len_go (game : Game) (moving_team : Color) (direction : Int × Int)
    (can_capture : Bool) : Nat → PositionBuilder → Nat → Nat
  | 0, _, move_len => move_len
  | fuel + 1, builder, move_len =>
    let builder1 := builder.walk direction
    match builder1.position with
    | some pos =>
      match game.get_square pos with
      | some piece =>
        if piece.color = moving_team then move_len
        else if can_capture then move_len + 1
        else move_len
      | none => calc_max_move_len_go game moving_team direction can_capture fuel builder1 (move_len + 1)
    | none => move_len

def calc_max_move_len (game : Game) (moving_team : Color) (base : PositionBuilder)
    (direction : Int × Int) (can_capture : Bool) : Nat :=
  calc_max_move_len_go game moving_team direction can_capture 16 base 0

/-- moves.rs pseudo_validate_knight_move.  The Rust body unwraps the source
square; callers only invoke it on occupied squares, so the none branch is
unreachable there. -/
def pseudo_validate_knight_move (game : Game) (fromPos toPos : Position) : Bool :=
  match game.get_square fromPos with
  | none => false
  | some piece =>
    let b := (PositionBuilder.set fromPos).withColor piece.color
    let valid_positions := [(b.walk (-1, 2)).build, (b.walk (1, 2)).build,
      (b.walk (2, 1)).build, (b.walk (2, -1)).build, (b.walk (1, -2)).build,
      (b.walk (-1, -2)).build, (b.walk (-2, -1)).build, (b.walk (-2, 1)).build]
    valid_positions.any fun o => decide (o = some toPos)

/-- moves.rs pseudo_validate_pawn_move. -/
def pseudo_validate_pawn_move (game : Game) (fromPos toPos : Position) : Bool :=
  match game.get_square fromPos with
  | none => false
  | some piece =>
    let target_square := game.get_square toPos
    let forwardOk : Bool :=
      match ((PositionBuilder.set fromPos).withColor piece.color |>.forward 1).build with
      | none => false
      | some one_forward =>
        if toPos = one_forward ∧ target_square.isNone then true
        else
          match ((PositionBuilder.set fromPos).withColor piece.color |>.forward 2).build with
          | none => false
          | some two_forward =>
            let initial_row : Fin 8 := if piece.color = .White then 1 else 6
            decide (toPos = two_forward) && (game.get_square one_forward).isNone &&
              target_square.isNone && decide (fromPos.y = initial_row)
    forwardOk ||
    let capLeft : Bool :=
      match ((PositionBuilder.set fromPos).withColor piece.color |>.forward 1 |>.walk (-1, 0)).build with
      | none => false
      | some diagonal_left =>
        match target_square with
        | some t => decide (toPos = diagonal_left) && decide (t.color ≠ piece.color)
        | none =>
          if toPos = diagonal_left then
            match ((PositionBuilder.set fromPos).walk (-1, 0)).build with
            | none => false
            | some side_sq =>
              match game.en_passant_susceptible_pawn with
              | none => false
              | some ep =>
                match game.get_square side_sq with
                | none => false
                | some target_piece =>
                  decide (target_piece.color ≠ piece.color) && decide (side_sq = ep) &&
                    decide (target_piece.piece_type = PieceType.Pawn)
          else false
    capLeft ||
    match ((PositionBuilder.set fromPos).withColor piece.color |>.forward 1 |>.walk (1, 0)).build with
    | none => false
    | some diagonal_right =>
      match target_square with
      | some t => decide (toPos = diagonal_right) && decide (t.color ≠ piece.color)
      | none =>
        if toPos = diagonal_right then
          match ((PositionBuilder.set fromPos).walk (1, 0)).build with
          | none => false
          | some side_sq =>
            match game.en_passant_susceptible_pawn with
            | none => false
            | some ep =>
              match game.get_square side_sq with
              | none => false
              | some target_piece =>
                decide (target_piece.color ≠ piece.color) && decide (side_sq = ep) &&
                  decide (target_piece.piece_type = PieceType.Pawn)
        else false

/-- moves.rs pseudo_validate_rook_move. -/
def pseudo_validate_rook_move (game : Game) (fromPos toPos : Position) : Bool :=
  match game.get_square fromPos with
  | none => false
  | some piece =>
    let base_builder := (PositionBuilder.set fromPos).withColor piece.color
    let x_diff : Int := (toPos.x.val : Int) - (fromPos.x.val : Int)
    let y_diff : Int := (toPos.y.val : Int) - (fromPos.y.val : Int)
    if x_diff ≠ 0 ∧ y_diff ≠ 0 then false
    else
      let diff := max x_diff.natAbs y_diff.natAbs
      let max_move_len :=
        if x_diff ≠ 0 then
          calc_max_move_len game piece.color base_builder (if x_diff > 0 then 1 else -1, 0) true
        else
          calc_max_move_len game piece.color base_builder (0, if y_diff > 0 then 1 else -1) true
      decide (diff ≤ max_move_len)

/-- moves.rs pseudo_validate_bishop_move. -/
def pseudo_validate_bishop_move (game : Game) (fromPos toPos : Position) : Bool :=
  match game.get_square fromPos with
  | none => false
  | some piece =>
    let base_builder := (PositionBuilder.set fromPos).withColor piece.color
    let x_diff : Int := (toPos.x.val : Int) - (fromPos.x.val : Int)
    let y_diff : Int := (toPos.y.val : Int) - (fromPos.y.val : Int)
    if x_diff.natAbs ≠ y_diff.natAbs then false
    else
      let x_mov : Int := if x_diff > 0 then 1 else -1
      let y_mov : Int := if y_diff > 0 then 1 else -1
      let max_move_len := calc_max_move_len game piece.color base_builder (x_mov, y_mov) true
      decide (x_diff.natAbs ≤ max_move_len)

/-- moves.rs pseudo_validate_king_move: the eight adjacent offsets only; no
two-file castling offset is generated here. -/
def pseudo_validate_king_move (game : Game) (fromPos toPos : Position) : Bool :=
  match game.get_square fromPos with
  | none => false
  | some piece =>
    let b := (PositionBuilder.set fromPos).withColor piece.color
    let valid_positions := [(b.walk (-1, 1)).build, (b.walk (0, 1)).build,
      (b.walk (1, 1)).build, (b.walk (-1, 0)).build, (b.walk (1, 0)).build,
      (b.walk (-1, -1)).build, (b.walk (0, -1)).build, (b.walk (1, -1)).build]
    valid_positions.any fun o => decide (o = some toPos)

/-- moves.rs pseudo_validate_queen_move. -/
def pseudo_validate_queen_move (game : Game) (fromPos toPos : Position) : Bool :=
  pseudo_validate_bishop_move game fromPos toPos || pseudo_validate_rook_move game fromPos toPos

/-- lib.rs Game::pseudo_validate_move. -/
def Game.pseudo_validate_move (g : Game) (fromPos toPos : Position) : Bool :=
  match g.get_square fromPos with
  | none => false
  | some source_square =>
    match source_square.piece_type with
    | .Pawn => pseudo_validate_pawn_move g fromPos toPos
    | .Knight => pseudo_validate_knight_move g fromPos toPos
    | .Bishop => pseudo_validate_bishop_move g fromPos toPos
    | .Rook => pseudo_validate_rook_move g fromPos toPos
    | .Queen => pseudo_validate_queen_move g fromPos toPos
    | .King => pseudo_validate_king_move g fromPos toPos

/-- Board positions in the iteration order of the nested Rust loops
(for x in 0..=7 outer, for y in 0..=7 inner). -/
def allPositions : List Position :=
  (List.finRange 8).flatMap fun x => (List.finRange 8).map fun y => ⟨x, y⟩

/-- lib.rs Game::get_pseudo_possible_moves: enumerate destinations, skipping
targets occupied by the mover's own color, then pseudo-validating. -/
def Game.get_pseudo_possible_moves (g : Game) (fromPos : Position) : List Position :=
  match g.get_square fromPos with
  | none => []
  | some source_square =>
    allPositions.filter fun pos =>
      (match g.get_square pos with
       | some target_tile => decide (target_tile.color ≠ source_square.color)
       | none => true) &&
      g.pseudo_validate_move fromPos pos

/-- lib.rs check_check: scan every square's pseudo moves for hits on either
king position; attribute simultaneous check to the side to move. -/
def check_check (game : Game) (white_king_pos black_king_pos : Position) : Option Color :=
  let white_check :=
    allPositions.any fun pos =>
      (game.get_pseudo_possible_moves pos).any fun m => decide (m = white_king_pos)
  let black_check :=
    allPositions.any fun pos =>
      (game.get_pseudo_possible_moves pos).any fun m => decide (m = black_king_pos)
  if black_check && white_check then some game.turn
  else if black_check then some .Black
  else if white_check then some .White
  else none

/-- The board clone plus piece move that lib.rs validate_move and cant_move
both perform before re-running check detection. -/
def simMove (g : Game) (fromPos toPos : Position) : Game :=
  (g.set_square toPos (g.get_square fromPos)).set_square fromPos none

/-- The per-move king-position update in lib.rs cant_move: a cached king
position follows the moving piece when the piece stood on it. -/
def kupd (k fromPos toPos : Position) : Position :=
  if fromPos = k then toPos else k

/-- Inner loop of lib.rs cant_move for one origin square: every pseudo move
must leave some king attacked (check_check not None). -/
def cant_move_inner (game : Game) (fromPos : Position)
    (white_king_pos black_king_pos : Position) : Bool :=
  (game.get_pseudo_possible_moves fromPos).all fun toPos =>
    !(check_check (simMove game fromPos toPos)
        (kupd white_king_pos fromPos toPos) (kupd black_king_pos fromPos toPos)).isNone

/-- lib.rs cant_move: true when no piece of the color has a pseudo move after
which check_check reports nobody in check.  Squares holding the other color
are skipped; empty squares contribute no pseudo moves. -/
def cant_move (game : Game) (color : Color)
    (white_king_pos black_king_pos : Position) : Bool :=
  allPositions.all fun fromPos =>
    match game.get_square fromPos with
    | some square =>
      if square.color ≠ color then true
      else cant_move_inner game fromPos white_king_pos black_king_pos
    | none => cant_move_inner game fromPos white_king_pos black_king_pos

/-- The king-locating scan of lib.rs check_game_state: last match in scan
order wins, defaulting to (0,0) when a king is absent. -/
def find_kings (game : Game) : Position × Position :=
  allPositions.foldl
    (fun acc pos =>
      match game.get_square pos with
      | some square =>
        if square.piece_type = .King then
          if square.color = .White then (pos, acc.2) else (acc.1, pos)
        else acc
      | none => acc)
    (⟨0, 0⟩, ⟨0, 0⟩)

/-- lib.rs check_game_state. -/
def check_game_state (game : Game) : GameState :=
  if game.moves_since_capture ≥ 50 then .Draw
  else
    let ks := find_kings game
    let white_king_pos := ks.1
    let black_king_pos := ks.2
    let in_check := check_check game white_king_pos black_king_pos
    let white_cant_move := cant_move game .White white_king_pos black_king_pos
    let black_cant_move := cant_move game .Black white_king_pos black_king_pos
    match in_check with
    | some c =>
      if c = .White && white_cant_move then .Checkmate .White
      else if c = .Black && black_cant_move then .Checkmate .Black
      else .Check c
    | none =>
      if (white_cant_move && decide (game.turn = .White)) ||
         (black_cant_move && decide (game.turn = .Black)) then .Draw
      else .Normal

/-- lib.rs Game::validate_move: pseudo-validate, simulate the bare piece move
on a clone, and reject if the classification of the clone reports the mover's
own color in check or checkmate.  The Rust body unwraps the destination square
of the clone; it is occupied whenever fromPos differs from toPos, which every
caller guarantees. -/
def Game.validate_move (g : Game) (fromPos toPos : Position) : Bool :=
  if !(g.pseudo_validate_move fromPos toPos) then false
  else
    let new_game := simMove g fromPos toPos
    match new_game.get_square toPos with
    | none => false
    | some source_square =>
      match check_game_state new_game with
      | .Check color => decide (source_square.color ≠ color)
      | .Checkmate color => decide (source_square.color ≠ color)
      | _ => true

/-- The precondition gate of lib.rs make_move (its matches! test). -/
def blocksMoves : GameState → Bool
  | .AwaitingPromotion _ => true
  | .Checkmate _ => true
  | _ => false

/-- The promotion-detection scan at the end of lib.rs make_move: first file
whose back-rank square holds a pawn of the far color, black row checked first
within each file. -/
def promo_scan (g : Game) : Option Position :=
  (List.finRange 8).findSome? fun x =>
    if (match g.get_square ⟨x, 0⟩ with
        | some piece => decide (piece.color = Color.Black ∧ piece.piece_type = PieceType.Pawn)
        | none => false) then some ⟨x, 0⟩
    else if (match g.get_square ⟨x, 7⟩ with
        | some piece => decide (piece.color = Color.White ∧ piece.piece_type = PieceType.Pawn)
        | none => false) then some ⟨x, 7⟩
    else none

/-- Successor file with the bound of Position::new carried; the castling
branch only forms in-range files (Rust would panic otherwise). -/
def finSucc (a : Fin 8) : Fin 8 := ⟨(a.val + 1) % 8, Nat.mod_lt _ (by omega)⟩

/-- Predecessor file (Nat truncation at 0, in range in the castling branch). -/
def finPred (a : Fin 8) : Fin 8 := ⟨a.val - 1, by omega⟩

/-- Step (1) of the committed part of lib.rs make_move: en passant removal,
detected as a pawn moving diagonally onto an empty destination. -/
def apply_en_passant_removal (g : Game) (fromPos toPos : Position) (src : Piece)
    (had : Bool) : Game :=
  if ((fromPos.x.val : Int) - (toPos.x.val : Int)).natAbs = 1 ∧
     ((fromPos.y.val : Int) - (toPos.y.val : Int)).natAbs = 1 ∧
     had = false ∧ src.piece_type = .Pawn
  then g.set_square ⟨toPos.x, fromPos.y⟩ none else g

/-- Step (2): castling rook relocation, keyed on a two-file king move and the
matching rights flag only. -/
def apply_castling_rook (g : Game) (fromPos toPos : Position) (src : Piece) : Game :=
  let move_diff : Int := (toPos.x.val : Int) - (fromPos.x.val : Int)
  if src.piece_type = .King ∧ move_diff.natAbs = 2 then
    if move_diff = -2 ∧ ((src.color = .White ∧ g.white_castling_queenside_available) ∨
                         (src.color = .Black ∧ g.black_castling_queenside_available)) then
      (g.set_square ⟨finSucc toPos.x, fromPos.y⟩ (g.get_square ⟨0, fromPos.y⟩)).set_square
        ⟨0, fromPos.y⟩ none
    else if move_diff = 2 ∧ ((src.color = .White ∧ g.white_castling_kingside_available) ∨
                             (src.color = .Black ∧ g.black_castling_kingside_available)) then
      (g.set_square ⟨finPred toPos.x, fromPos.y⟩ (g.get_square ⟨7, fromPos.y⟩)).set_square
        ⟨7, fromPos.y⟩ none
    else g
  else g

/-- Step (3): castling-rights revocation for a moved king or a rook leaving
its original corner. -/
def apply_rights_revocation (g : Game) (fromPos : Position) (src : Piece) : Game :=
  let g1 :=
    if src.piece_type = .King then
      match src.color with
      | .Black => { g with black_castling_queenside_available := false,
                           black_castling_kingside_available := false }
      | .White => { g with white_castling_queenside_available := false,
                           white_castling_kingside_available := false }
    else g
  if src.piece_type = .Rook then
    if fromPos = ⟨0, 0⟩ then { g1 with white_castling_queenside_available := false }
    else if fromPos = ⟨7, 0⟩ then { g1 with white_castling_kingside_available := false }
    else if fromPos = ⟨0, 7⟩ then { g1 with black_castling_queenside_available := false }
    else if fromPos = ⟨7, 7⟩ then { g1 with black_castling_kingside_available := false }
    else g1
  else g1

/-- Step (4): the piece move itself. -/
def apply_board_move (g : Game) (fromPos toPos : Position) (src : Piece) : Game :=
  (g.set_square toPos (some src)).set_square fromPos none

/-- Step (5) and (6): increment the capture counter, reset it on a capture of
an occupied destination, and flip the turn. -/
def apply_counter_and_turn (g : Game) (had : Bool) : Game :=
  { g with moves_since_capture := if had then 0 else g.moves_since_capture + 1,
           turn := g.turn.opp }

/-- Step (8): reclassify the committed position. -/
def apply_state_update (g : Game) : Game :=
  { g with game_state := check_game_state g }

/-- Step (7), placed after (8) as in the source: clear en passant
susceptibility, then re-arm it when a pawn just advanced two ranks. -/
def apply_ep_update (g : Game) (fromPos toPos : Position) : Game :=
  let g1 := { g with en_passant_susceptible_pawn := none }
  match g1.get_square toPos with
  | some moved_piece =>
    if moved_piece.piece_type = .Pawn ∧
       ((fromPos.y.val : Int) - (toPos.y.val : Int)).natAbs = 2
    then { g1 with en_passant_susceptible_pawn := some toPos } else g1
  | none => g1

/-- Step (9): the promotion scan overrides the classified state. -/
def apply_promo_update (g : Game) : Game :=
  match promo_scan g with
  | some p => { g with game_state := .AwaitingPromotion p }
  | none => g

/-- The committed part of lib.rs make_move (everything after the comment
"below this line, the move WILL go through"), in source order. -/
def make_move_apply (g : Game) (fromPos toPos : Position) (src : Piece) (had : Bool) : Game :=
  let g1 := apply_en_passant_removal g fromPos toPos src had
  let g2 := apply_castling_rook g1 fromPos toPos src
  let g3 := apply_rights_revocation g2 fromPos src
  let g4 := apply_board_move g3 fromPos toPos src
  let g5 := apply_counter_and_turn g4 had
  let g6 := apply_state_update g5
  let g7 := apply_ep_update g6 fromPos toPos
  apply_promo_update g7

/-- lib.rs Game::make_move, returning the Rust result together with the final
state of the mutated receiver. -/
def Game.make_move (g : Game) (fromPos toPos : Position) : MoveResult × Game :=
  if blocksMoves g.game_state then (.Disallowed, g)
  else
    let source_square := g.get_square fromPos
    let target_square := g.get_square toPos
    if fromPos = toPos then (.Disallowed, g)
    else
      match source_square with
      | none => (.Disallowed, g)
      | some src =>
        if src.color ≠ g.turn then (.Disallowed, g)
        else
          let target_square_had_piece := target_square.isSome
          let friendly_fire : Bool :=
            match target_square with
            | some t => decide (t.color = g.turn)
            | none => false
          if friendly_fire then (.Disallowed, g)
          else if !(g.validate_move fromPos toPos) then (.Disallowed, g)
          else (.Allowed, make_move_apply g fromPos toPos src target_square_had_piece)

/-- lib.rs Game::promote. -/
def Game.promote (g : Game) (new_type : PieceType) : MoveResult × Game :=
  match g.game_state with
  | .AwaitingPromotion pos =>
    (match g.get_square pos with
     | some piece =>
       if piece.piece_type ≠ .Pawn then (.Disallowed, g)
       else
         match new_type with
         | .King => (.Disallowed, g)
         | .Pawn => (.Disallowed, g)
         | _ =>
           let g1 := g.set_square pos (some ⟨new_type, piece.color⟩)
           (.Allowed, { g1 with game_state := check_game_state g1 })
     | none => (.Disallowed, g))
  | _ => (.Disallowed, g)

/-- Rust str::split with a single-character separator, over the character
sequence of the string (empty pieces preserved, ["" ] for the empty input). -/
def splitChar (sep : Char) (l : List Char) : List (List Char) :=
  l.foldr
    (fun ch acc =>
      if ch = sep then [] :: acc
      else
        match acc with
        | h :: t => (ch :: h) :: t
        | [] => [[ch]])
    [[]]

/-- The empty board produced by the clearing pass at the top of load_fen. -/
def emptyBoard : Fin 64 → Square := fun _ => none

/-- Direct write to the raw square array, as load_fen does with
squares[seg_index * 8 + filled_tiles].  Rust panics when the index is out of
bounds; that execution is modelled as a no-op and is not hit by the inputs
reasoned about here. -/
def raw_write (g : Game) (i : Nat) (v : Square) : Game :=
  if h : i < 64 then { g with squares := Function.update g.squares ⟨i, h⟩ v } else g

/-- The piece-letter table of load_fen (after to_ascii_lowercase). -/
def charPiece : Char → Option PieceType
  | 'p' => some .Pawn
  | 'r' => some .Rook
  | 'n' => some .Knight
  | 'b' => some .Bishop
  | 'q' => some .Queen
  | 'k' => some .King
  | _ => none

/-- One rank of the load_fen board loop.  An error result carries the game as
mutated so far, matching the early return of the Rust code. -/
def parse_rank (g : Game) (seg_index : Nat) :
    Nat → List Char → Except Game (Game × Nat)
  | filled, [] => .ok (g, filled)
  | filled, c :: cs =>
    if c.isDigit then parse_rank g seg_index (filled + (c.toNat - 48)) cs
    else
      let color := if c.isUpper then Color.White else Color.Black
      match charPiece c.toLower with
      | none => .error g
      | some piece =>
        parse_rank (raw_write g (seg_index * 8 + filled) (some ⟨piece, color⟩))
          seg_index (filled + 1) cs

/-- The outer board loop of load_fen over the rank segments. -/
def parse_board (seg_index : Nat) (g : Game) :
    List (List Char) → Except Game Game
  | [] => .ok g
  | seg :: rest =>
    match parse_rank g seg_index 0 seg with
    | .error pg => .error pg
    | .ok (g1, filled_tiles) =>
      if filled_tiles ≠ 8 then .error g1
      else parse_board (seg_index + 1) g1 rest

/-- Rust u32::from_str as used for the halfmove clock: optional leading plus,
decimal digits only, rejecting the empty string and values outside u32. -/
def parse_u32 (s : List Char) : Option Nat :=
  let ds := match s with
    | '+' :: r => r
    | _ => s
  if ds.isEmpty || !(ds.all Char.isDigit) then none
  else
    let n := ds.foldl (fun a c => a * 10 + (c.toNat - 48)) 0
    if n < 4294967296 then some n else none

/-- lib.rs Game::load_fen.  The Rust function returns unit and mutates the
receiver, commenting its early returns with ERROR; the result here is the
receiver's final state.  The board is cleared before any validation, the en
passant segment is ignored (and the en_passant_susceptible_pawn field is left
as it was), and a malformed halfmove clock is silently skipped. -/
def Game.load_fen (g : Game) (fen : List Char) : Game :=
  let cleared := { g with squares := emptyBoard }
  match splitChar ' ' fen with
  | [s0, s1, s2, _s3, s4, _s5] =>
    let board_segments := splitChar '/' s0
    if board_segments.length ≠ 8 then cleared
    else
      match parse_board 0 cleared board_segments with
      | .error pg => pg
      | .ok g1 =>
        match (match s1 with
               | ['w'] => some Color.White
               | ['b'] => some Color.Black
               | _ => none) with
        | none => g1
        | some t =>
          let g2 := { g1 with
            turn := t,
            black_castling_kingside_available := s2.contains 'k',
            black_castling_queenside_available := s2.contains 'q',
            white_castling_kingside_available := s2.contains 'K',
            white_castling_queenside_available := s2.contains 'Q' }
          let g3 :=
            match parse_u32 s4 with
            | some n => { g2 with moves_since_capture := n }
            | none => g2
          { g3 with game_state := check_game_state g3 }
  | _ => cleared

/-- Board lookup for a concrete placement list (file/rank positions paired
with pieces). -/
def boardOf (l : List (Position × Piece)) : Fin 64 → Square :=
  fun i => (l.find? (fun pr => pr.1.idx == i)).map (fun pr => pr.2)

def wP : Piece := ⟨.Pawn, .White⟩
def wR : Piece := ⟨.Rook, .White⟩
def wK : Piece := ⟨.King, .White⟩
def bP : Piece := ⟨.Pawn, .Black⟩
def bR : Piece := ⟨.Rook, .Black⟩
def bK : Piece := ⟨.King, .Black⟩

/-- A game with all non-board fields in their most common test configuration. -/
def mkGame (l : List (Position × Piece)) (t : Color) (st : GameState) (msc : Nat)
    (ep : Option Position) : Game :=
  { squares := boardOf l, turn := t, game_state := st, moves_since_capture := msc,
    en_passant_susceptible_pawn := ep,
    white_castling_kingside_available := true,
    white_castling_queenside_available := true,
    black_castling_kingside_available := true,
    black_castling_queenside_available := true }

/-- C1 input: White king a1, Black rook a8, White to move, halfmove clock 50
(a position loadable from a FEN with clock 50, whose classified state is
Draw). -/
def gC1 : Game := mkGame [(⟨0, 0⟩, wK), (⟨0, 7⟩, bR)] .White .Draw 50 none

/-- Attack test used to state king safety: some square's pseudo-legal move
list (which already excludes same-colored targets) contains the given square. -/
def squareAttacked (g : Game) (k : Position) : Bool :=
  allPositions.any fun pos => (g.get_pseudo_possible_moves pos).any fun m => decide (m = k)

/-- C2 input: White king e1, White rook h1, f1/g1 empty, kingside rights
available, White to move. -/
def gC2 : Game := mkGame [(⟨4, 0⟩, wK), (⟨7, 0⟩, wR)] .White .Normal 0 none

def bN : Piece := ⟨.Knight, .Black⟩

/-- C3 input: the White king on a1 is boxed in (a2 covered by the knight c1,
b1 and b2 by the rook b8), and the only other White pseudo move is the pawn
capture d5xe6, which delivers check to the Black king on d7. -/
def gC3 : Game :=
  mkGame [(⟨0, 0⟩, wK), (⟨3, 4⟩, wP), (⟨2, 0⟩, bN), (⟨1, 7⟩, bR),
          (⟨3, 6⟩, bK), (⟨3, 5⟩, bP), (⟨4, 5⟩, bP)] .White .Normal 0 none

/-- Reported mobility of a color: the Mobility Evaluator run exactly as the
Game-State Classifier runs it, with the scanned king positions. -/
def has_mobility_reported (g : Game) (c : Color) : Prop :=
  cant_move g c (find_kings g).1 (find_kings g).2 = false

/-- C4 witness input: a lone White pawn on d5. -/
def gC4 : Game := mkGame [(⟨3, 4⟩, wP)] .White .Normal 0 none

/-- C5 input: White pawn d5, Black pawn e5 just double-moved (en passant
susceptible), clock 3, White to move. -/
def gC5 : Game := mkGame [(⟨3, 4⟩, wP), (⟨4, 4⟩, bP)] .White .Normal 3 (some ⟨4, 4⟩)

/-- C6 input: a game holding a White pawn on d5 before the failed import. -/
def gC6 : Game := mkGame [(⟨3, 4⟩, wP)] .Black .Normal 5 none

/-- C7 witness inputs: a game awaiting promotion and a checkmated game. -/
def gC7a : Game := mkGame [(⟨0, 7⟩, wP)] .Black (.AwaitingPromotion ⟨0, 7⟩) 0 none

def gC7b : Game := mkGame [(⟨3, 4⟩, wP)] .White (.Checkmate .White) 0 none

/-- C8 input: lone White pawn, halfmove clock 50, classified state Draw. -/
def gC8 : Game := mkGame [(⟨3, 4⟩, wP)] .White .Draw 50 none

/-- C9 witness input: White pawn promoted square a8 pending. -/
def gC9 : Game := mkGame [(⟨0, 7⟩, wP)] .Black (.AwaitingPromotion ⟨0, 7⟩) 7 none

/-- C10 witness input: an empty board. -/
def gC10 : Game := mkGame [] .White .Normal 0 none

theorem idx_injective (p q : Position) (h : p.idx = q.idx) : p = q := by
  obtain ⟨⟨px, hpx⟩, ⟨py, hpy⟩⟩ := p
  obtain ⟨⟨qx, hqx⟩, ⟨qy, hqy⟩⟩ := q
  simp only [Position.idx, Fin.mk.injEq] at h
  simp only [Position.mk.injEq, Fin.mk.injEq]
  omega

theorem get_set_same (g : Game) (p : Position) (v : Square) :
    (g.set_square p v).get_square p = v := by
  simp [Game.get_square, Game.set_square]

theorem get_set_ne (g : Game) (p q : Position) (v : Square) (h : q ≠ p) :
    (g.set_square p v).get_square q = g.get_square q := by
  simp only [Game.get_square, Game.set_square]
  exact Function.update_noteq (fun hh => h (idx_injective q p hh)) _ _

theorem mem_allPositions (p : Position) : p ∈ allPositions := by
  unfold allPositions
  rw [List.mem_flatMap]
  exact ⟨p.x, List.mem_finRange _, List.mem_map.2 ⟨p.y, List.mem_finRange _, rfl⟩⟩

theorem get_pseudo_of_empty (g : Game) (p : Position) (h : g.get_square p = none) :
    g.get_pseudo_possible_moves p = [] := by
  simp [Game.get_pseudo_possible_moves, h]

/-- C10: writing a square and reading it back yields the written value, and
every other valid position reads as before (the file/rank-to-index mapping is
injective over valid positions). -/
theorem set_get_roundtrip (g : Game) (p : Position) (v : Square) :
    (g.set_square p v).get_square p = v ∧
    ∀ q : Position, q ≠ p → (g.set_square p v).get_square q = g.get_square q :=
  ⟨get_set_same g p v, fun q hq => get_set_ne g p q v hq⟩

theorem set_get_roundtrip_witness :
    (gC10.set_square ⟨2, 3⟩ (some wR)).get_square ⟨2, 3⟩ = some wR ∧
    (gC10.set_square ⟨2, 3⟩ (some wR)).get_square ⟨2, 4⟩ = gC10.get_square ⟨2, 4⟩ :=
  ⟨(set_get_roundtrip gC10 ⟨2, 3⟩ (some wR)).1,
   (set_get_roundtrip gC10 ⟨2, 3⟩ (some wR)).2 ⟨2, 4⟩ (by decide)⟩

/-- C2: in a position with the White king on e1, a White rook on h1, f1 and g1
empty, kingside rights available and White to move, make_move(e1,g1) is
Disallowed and the game is unchanged: the king's pseudo move set has no
two-file offset, so validate_move rejects the castling move before the rook
relocation code can run.  This refutes the claim (and contradicts the
repository's own castling tests). -/
theorem castling_scenario_rejected :
    gC2.get_square ⟨4, 0⟩ = some wK ∧ gC2.get_square ⟨7, 0⟩ = some wR ∧
    gC2.get_square ⟨5, 0⟩ = none ∧ gC2.get_square ⟨6, 0⟩ = none ∧
    gC2.white_castling_kingside_available = true ∧ gC2.turn = .White ∧
    gC2.make_move ⟨4, 0⟩ ⟨6, 0⟩ = (.Disallowed, gC2) := by
  exact ⟨by decide, by decide, by decide, by decide, rfl, rfl, rfl⟩

/-- C1: with the halfmove counter at 50, the simulated reclassification inside
validate_move short-circuits to Draw and the king-safety filter is skipped:
from gC1 (White king a1 attacked by the Black rook a8, counter 50) the move
a1-a2 is Allowed although the mover's king is attacked by an opposing
pseudo-legal move in the resulting position.  This refutes the claim. -/
theorem fifty_move_skips_king_safety :
    gC1.moves_since_capture = 50 ∧
    (gC1.make_move ⟨0, 0⟩ ⟨0, 1⟩).1 = .Allowed ∧
    (gC1.make_move ⟨0, 0⟩ ⟨0, 1⟩).2.get_square ⟨0, 1⟩ = some wK ∧
    squareAttacked (gC1.make_move ⟨0, 0⟩ ⟨0, 1⟩).2 ⟨0, 1⟩ = true := by
  exact ⟨rfl, by decide, by decide, by decide⟩

/-- C6: the position-import operation clears the board before validating, and
on malformed input (here a wrong field count) it returns early with no failure
value: the previously stored pieces are gone and the game is left modified.
This refutes the claim. -/
theorem load_fen_failure_mutates :
    gC6.get_square ⟨3, 4⟩ = some wP ∧
    gC6.load_fen ['x'] = { gC6 with squares := emptyBoard } ∧
    gC6.load_fen ['x'] ≠ gC6 := by
  refine ⟨by decide, rfl, fun h => ?_⟩
  have h2 := congrArg (fun gg => gg.get_square ⟨3, 4⟩) h
  exact absurd h2 (by decide)

/-- C7: while the game state is AwaitingPromotion or Checkmate, make_move
returns Disallowed for every pair of positions and leaves the game unchanged. -/
theorem blocked_states_reject_moves (g : Game) (fromPos toPos : Position)
    (h : (∃ p, g.game_state = .AwaitingPromotion p) ∨ (∃ c, g.game_state = .Checkmate c)) :
    g.make_move fromPos toPos = (.Disallowed, g) := by
  have hb : blocksMoves g.game_state = true := by
    rcases h with ⟨p, hp⟩ | ⟨c, hc⟩
    · rw [hp]; rfl
    · rw [hc]; rfl
  simp [Game.make_move, hb]

theorem blocked_states_reject_moves_witness :
    gC7a.make_move ⟨0, 6⟩ ⟨0, 7⟩ = (.Disallowed, gC7a) ∧
    gC7b.make_move ⟨3, 4⟩ ⟨3, 5⟩ = (.Disallowed, gC7b) :=
  ⟨blocked_states_reject_moves gC7a ⟨0, 6⟩ ⟨0, 7⟩ (Or.inl ⟨⟨0, 7⟩, rfl⟩),
   blocked_states_reject_moves gC7b ⟨3, 4⟩ ⟨3, 5⟩ (Or.inr ⟨.White, rfl⟩)⟩

/-- C8: a game whose state is Draw (halfmove clock 50) is not blocked by the
precondition gate: make_move returns Allowed and mutates the board; the gate
fires exactly for AwaitingPromotion and Checkmate. -/
theorem draw_state_does_not_block :
    gC8.game_state = .Draw ∧
    (gC8.make_move ⟨3, 4⟩ ⟨3, 5⟩).1 = .Allowed ∧
    (gC8.make_move ⟨3, 4⟩ ⟨3, 5⟩).2.get_square ⟨3, 4⟩ ≠ gC8.get_square ⟨3, 4⟩ ∧
    ∀ s : GameState, blocksMoves s = true ↔
      (∃ p, s = .AwaitingPromotion p) ∨ (∃ c, s = .Checkmate c) := by
  refine ⟨rfl, by decide, by decide, fun s => ?_⟩
  cases s <;> simp [blocksMoves]

theorem apply_en_passant_removal_turn (g : Game) (fromPos toPos : Position) (src : Piece)
    (had : Bool) : (apply_en_passant_removal g fromPos toPos src had).turn = g.turn := by
  simp only [apply_en_passant_removal]; split <;> rfl

theorem apply_en_passant_removal_msc (g : Game) (fromPos toPos : Position) (src : Piece)
    (had : Bool) :
    (apply_en_passant_removal g fromPos toPos src had).moves_since_capture =
      g.moves_since_capture := by
  simp only [apply_en_passant_removal]; split <;> rfl

theorem apply_castling_rook_turn (g : Game) (fromPos toPos : Position) (src : Piece) :
    (apply_castling_rook g fromPos toPos src).turn = g.turn := by
  simp only [apply_castling_rook]; repeat' split
  all_goals rfl

theorem apply_castling_rook_msc (g : Game) (fromPos toPos : Position) (src : Piece) :
    (apply_castling_rook g fromPos toPos src).moves_since_capture = g.moves_since_capture := by
  simp only [apply_castling_rook]; repeat' split
  all_goals rfl

theorem apply_rights_revocation_turn (g : Game) (fromPos : Position) (src : Piece) :
    (apply_rights_revocation g fromPos src).turn = g.turn := by
  simp only [apply_rights_revocation]; repeat' split
  all_goals rfl

theorem apply_rights_revocation_msc (g : Game) (fromPos : Position) (src : Piece) :
    (apply_rights_revocation g fromPos src).moves_since_capture = g.moves_since_capture := by
  simp only [apply_rights_revocation]; repeat' split
  all_goals rfl

theorem apply_board_move_turn (g : Game) (fromPos toPos : Position) (src : Piece) :
    (apply_board_move g fromPos toPos src).turn = g.turn := rfl

theorem apply_board_move_msc (g : Game) (fromPos toPos : Position) (src : Piece) :
    (apply_board_move g fromPos toPos src).moves_since_capture = g.moves_since_capture := rfl

theorem apply_counter_and_turn_turn (g : Game) (had : Bool) :
    (apply_counter_and_turn g had).turn = g.turn.opp := rfl

theorem apply_counter_and_turn_msc (g : Game) (had : Bool) :
    (apply_counter_and_turn g had).moves_since_capture =
      if had then 0 else g.moves_since_capture + 1 := rfl

theorem apply_state_update_turn (g : Game) : (apply_state_update g).turn = g.turn := rfl

theorem apply_state_update_msc (g : Game) :
    (apply_state_update g).moves_since_capture = g.moves_since_capture := rfl

theorem apply_ep_update_turn (g : Game) (fromPos toPos : Position) :
    (apply_ep_update g fromPos toPos).turn = g.turn := by
  simp only [apply_ep_update]; repeat' split
  all_goals rfl

theorem apply_ep_update_msc (g : Game) (fromPos toPos : Position) :
    (apply_ep_update g fromPos toPos).moves_since_capture = g.moves_since_capture := by
  simp only [apply_ep_update]; repeat' split
  all_goals rfl

theorem apply_promo_update_turn (g : Game) : (apply_promo_update g).turn = g.turn := by
  simp only [apply_promo_update]; split <;> rfl

theorem apply_promo_update_msc (g : Game) :
    (apply_promo_update g).moves_since_capture = g.moves_since_capture := by
  simp only [apply_promo_update]; split <;> rfl

theorem make_move_apply_turn (g : Game) (fromPos toPos : Position) (src : Piece) (had : Bool) :
    (make_move_apply g fromPos toPos src had).turn = g.turn.opp := by
  simp only [make_move_apply, apply_promo_update_turn, apply_ep_update_turn,
    apply_state_update_turn, apply_counter_and_turn_turn, apply_board_move_turn,
    apply_rights_revocation_turn, apply_castling_rook_turn, apply_en_passant_removal_turn]

theorem make_move_apply_msc (g : Game) (fromPos toPos : Position) (src : Piece) (had : Bool) :
    (make_move_apply g fromPos toPos src had).moves_since_capture =
      if had then 0 else g.moves_since_capture + 1 := by
  simp only [make_move_apply, apply_promo_update_msc, apply_ep_update_msc,
    apply_state_update_msc, apply_counter_and_turn_msc, apply_board_move_msc,
    apply_rights_revocation_msc, apply_castling_rook_msc, apply_en_passant_removal_msc]

/-- C4: make_move leaves the whole game value unchanged whenever it returns
Disallowed, and flips the turn to the opposite color whenever it returns
Allowed. -/
theorem make_move_all_or_nothing (g : Game) (fromPos toPos : Position) :
    ((g.make_move fromPos toPos).1 = .Disallowed → (g.make_move fromPos toPos).2 = g) ∧
    ((g.make_move fromPos toPos).1 = .Allowed →
      ((g.make_move fromPos toPos).2).turn = g.turn.opp) := by
  simp only [Game.make_move]
  repeat' split
  all_goals
    first
      | exact ⟨fun _ => rfl, fun h => MoveResult.noConfusion h⟩
      | exact ⟨fun h => MoveResult.noConfusion h,
               fun _ => make_move_apply_turn g fromPos toPos _ _⟩

theorem make_move_all_or_nothing_witness :
    ((gC4.make_move ⟨3, 4⟩ ⟨3, 4⟩).1 = .Disallowed ∧ (gC4.make_move ⟨3, 4⟩ ⟨3, 4⟩).2 = gC4) ∧
    ((gC4.make_move ⟨3, 4⟩ ⟨3, 5⟩).1 = .Allowed ∧
      ((gC4.make_move ⟨3, 4⟩ ⟨3, 5⟩).2).turn = gC4.turn.opp) :=
  ⟨⟨by decide, (make_move_all_or_nothing gC4 ⟨3, 4⟩ ⟨3, 4⟩).1 (by decide)⟩,
   ⟨by decide, (make_move_all_or_nothing gC4 ⟨3, 4⟩ ⟨3, 5⟩).2 (by decide)⟩⟩

/-- C5 counterexample: from gC5 the en passant capture d5xe6 is Allowed and
removes the Black pawn from e5 (the destination e6 was empty), yet
moves_since_capture goes from 3 to 4 instead of resetting to 0. -/
theorem en_passant_keeps_counter :
    (gC5.make_move ⟨3, 4⟩ ⟨4, 5⟩).1 = .Allowed ∧
    gC5.get_square ⟨4, 4⟩ = some bP ∧
    gC5.get_square ⟨4, 5⟩ = none ∧
    (gC5.make_move ⟨3, 4⟩ ⟨4, 5⟩).2.get_square ⟨4, 4⟩ = none ∧
    gC5.moves_since_capture = 3 ∧
    (gC5.make_move ⟨3, 4⟩ ⟨4, 5⟩).2.moves_since_capture = 4 := by
  exact ⟨by decide, by decide, by decide, by decide, rfl, by decide⟩

/-- C5 (amended): on every Allowed move, moves_since_capture becomes 0 exactly
when the destination square held a piece before the move, and is incremented
by 1 otherwise — in particular it is incremented, not reset, on an en passant
capture, whose destination square is empty. -/
theorem make_move_counter_rule (g : Game) (fromPos toPos : Position) :
    (g.make_move fromPos toPos).1 = .Allowed →
      (g.make_move fromPos toPos).2.moves_since_capture =
        if (g.get_square toPos).isSome then 0 else g.moves_since_capture + 1 := by
  simp only [Game.make_move]
  repeat' split
  all_goals
    first
      | exact fun h => MoveResult.noConfusion h
      | (intro h2; rw [make_move_apply_msc]; simp_all)

theorem make_move_counter_rule_witness :
    (gC5.make_move ⟨3, 4⟩ ⟨4, 5⟩).1 = .Allowed ∧
    (gC5.make_move ⟨3, 4⟩ ⟨4, 5⟩).2.moves_since_capture =
      if (gC5.get_square ⟨4, 5⟩).isSome then 0 else gC5.moves_since_capture + 1 :=
  ⟨by decide, make_move_counter_rule gC5 ⟨3, 4⟩ ⟨4, 5⟩ (by decide)⟩

/-- C9: while AwaitingPromotion(pos) with a pawn on pos, promote(t) for t not
King and not Pawn succeeds, changes only the square at pos (keeping the pawn's
color) and the game_state; turn, counters, en passant target, castling flags
and every other square are untouched. -/
theorem promote_frame (g : Game) (pos : Position) (t : PieceType) (pc : Color)
    (hstate : g.game_state = .AwaitingPromotion pos)
    (hsq : g.get_square pos = some ⟨.Pawn, pc⟩)
    (hK : t ≠ .King) (hP : t ≠ .Pawn) :
    (g.promote t).1 = .Allowed ∧
    (g.promote t).2.get_square pos = some ⟨t, pc⟩ ∧
    (∀ q : Position, q ≠ pos → (g.promote t).2.get_square q = g.get_square q) ∧
    (g.promote t).2.turn = g.turn ∧
    (g.promote t).2.moves_since_capture = g.moves_since_capture ∧
    (g.promote t).2.en_passant_susceptible_pawn = g.en_passant_susceptible_pawn ∧
    (g.promote t).2.white_castling_kingside_available = g.white_castling_kingside_available ∧
    (g.promote t).2.white_castling_queenside_available = g.white_castling_queenside_available ∧
    (g.promote t).2.black_castling_kingside_available = g.black_castling_kingside_available ∧
    (g.promote t).2.black_castling_queenside_available = g.black_castling_queenside_available := by
  have hget : ∀ q : Position, q ≠ pos →
      (g.set_square pos (some ⟨t, pc⟩)).get_square q = g.get_square q :=
    fun q hq => get_set_ne g pos q _ hq
  cases t with
  | King => exact absurd rfl hK
  | Pawn => exact absurd rfl hP
  | Knight =>
    simp only [Game.promote, hstate, hsq]
    exact ⟨rfl, get_set_same g pos _, hget, rfl, rfl, rfl, rfl, rfl, rfl, rfl⟩
  | Bishop =>
    simp only [Game.promote, hstate, hsq]
    exact ⟨rfl, get_set_same g pos _, hget, rfl, rfl, rfl, rfl, rfl, rfl, rfl⟩
  | Rook =>
    simp only [Game.promote, hstate, hsq]
    exact ⟨rfl, get_set_same g pos _, hget, rfl, rfl, rfl, rfl, rfl, rfl, rfl⟩
  | Queen =>
    simp only [Game.promote, hstate, hsq]
    exact ⟨rfl, get_set_same g pos _, hget, rfl, rfl, rfl, rfl, rfl, rfl, rfl⟩

theorem promote_frame_witness :
    gC9.game_state = .AwaitingPromotion ⟨0, 7⟩ ∧
    gC9.get_square ⟨0, 7⟩ = some ⟨.Pawn, .White⟩ ∧
    (gC9.promote .Queen).1 = .Allowed ∧
    (gC9.promote .Queen).2.get_square ⟨0, 7⟩ = some ⟨.Queen, .White⟩ ∧
    (gC9.promote .Queen).2.get_square ⟨3, 4⟩ = gC9.get_square ⟨3, 4⟩ ∧
    (gC9.promote .Queen).2.turn = gC9.turn := by
  have h := promote_frame gC9 ⟨0, 7⟩ .Queen .White rfl (by decide) (by decide) (by decide)
  exact ⟨rfl, by decide, h.1, h.2.1, h.2.2.1 ⟨3, 4⟩ (by decide), h.2.2.2.1⟩

set_option maxHeartbeats 4000000 in
/-- C3: refuted at gC3 with color White.  The Mobility Evaluator (cant_move,
run with the classifier's scanned king positions) reports that White cannot
move — every White king move leaves the king attacked, and the pawn move
d5xe6 leaves the Black king attacked — although that pawn move passes the
Legality Filter (validate_move): it delivers check to Black, and checking
moves never count toward mobility because cant_move demands
check_check = None. -/
theorem mobility_vs_filter_mismatch :
    ¬ (has_mobility_reported gC3 .White ↔
        ∃ fromPos toPos : Position,
          (∃ pc : Piece, gC3.get_square fromPos = some pc ∧ pc.color = .White) ∧
          toPos ∈ gC3.get_pseudo_possible_moves fromPos ∧
          gC3.validate_move fromPos toPos = true) := by
  intro h
  have hex : ∃ fromPos toPos : Position,
      (∃ pc : Piece, gC3.get_square fromPos = some pc ∧ pc.color = .White) ∧
      toPos ∈ gC3.get_pseudo_possible_moves fromPos ∧
      gC3.validate_move fromPos toPos = true :=
    ⟨⟨3, 4⟩, ⟨4, 5⟩, ⟨wP, by decide, rfl⟩, by decide, by decide⟩
  have hmob : cant_move gC3 .White (find_kings gC3).1 (find_kings gC3).2 = false := h.mpr hex
  have hcm : cant_move gC3 .White (find_kings gC3).1 (find_kings gC3).2 = true := by decide
  exact absurd (hcm.symm.trans hmob) (by decide)

/-- C3 (amended): the Mobility Evaluator reports mobility for a color if and
only if some piece of that color has a pseudo-legal move after which the
Attack/Check Detector — run with the cached king positions, updated when the
moved piece stood on one — reports neither king in check.  In particular a
move that delivers check to the opponent does not count toward mobility. -/
theorem cant_move_characterization (g : Game) (c : Color) (wk bk : Position) :
    cant_move g c wk bk = false ↔
      ∃ fromPos toPos : Position,
        (∃ pc : Piece, g.get_square fromPos = some pc ∧ pc.color = c) ∧
        toPos ∈ g.get_pseudo_possible_moves fromPos ∧
        check_check (simMove g fromPos toPos)
          (kupd wk fromPos toPos) (kupd bk fromPos toPos) = none := by
  constructor
  · intro h
    have h1 : ¬ (cant_move g c wk bk = true) := by simp [h]
    unfold cant_move at h1
    rw [List.all_eq_true] at h1
    push_neg at h1
    obtain ⟨fp, _, hfp⟩ := h1
    simp only [ne_eq, Bool.not_eq_true] at hfp
    cases hsq : g.get_square fp with
    | none =>
      simp only [hsq] at hfp
      simp only [cant_move_inner, get_pseudo_of_empty g fp hsq] at hfp
      simp at hfp
    | some sq =>
      simp only [hsq] at hfp
      by_cases hc : sq.color = c
      · rw [if_neg (by simp [hc])] at hfp
        simp only [cant_move_inner] at hfp
        have h2 : ∃ tp ∈ g.get_pseudo_possible_moves fp,
            check_check (simMove g fp tp) (kupd wk fp tp) (kupd bk fp tp) = none := by
          simpa using hfp
        obtain ⟨tp, htp, hcc⟩ := h2
        exact ⟨fp, tp, ⟨sq, hsq, hc⟩, htp, hcc⟩
      · rw [if_pos (by simp [hc])] at hfp
        exact absurd hfp (by simp)
  · rintro ⟨fp, tp, ⟨pc, hsq, hc⟩, htp, hcc⟩
    cases hb : cant_move g c wk bk with
    | false => rfl
    | true =>
      exfalso
      unfold cant_move at hb
      rw [List.all_eq_true] at hb
      have h1 := hb fp (mem_allPositions fp)
      simp only [hsq] at h1
      rw [if_neg (by simp [hc])] at h1
      simp only [cant_move_inner, List.all_eq_true] at h1
      have h2 := h1 tp htp
      rw [hcc] at h2
      simp at h2
